import Mathlib

/-!
Verification development for the robusta service-discovery sink
(`robusta/core/sinks/robusta/robusta_sink.py`) and the image-pull-backoff
trigger (`robusta/core/triggers/pod_image_pull_backoff.py`).

The Python code is shallowly embedded: the in-memory services cache (a
Python dict) becomes an association list with dict-faithful get/set/erase,
`__publish_new_services` becomes a pure function from (cache, snapshot,
persisted store contents) to (new cache, list of persisted ServiceInfo,
resolver snapshot), and the trigger's `should_fire` becomes a function into
`Except String (Bool × rate-limiter-state)` where `.error` marks a Python
exception (attribute access on `None`, `None + list`, ...).
-/

set_option maxHeartbeats 1000000

/-- ServiceInfo. Modelled from the spec: the `ServiceInfo` pydantic model
(`robusta/core/model/services.py`) is not among the provided sources; the spec
gives its fields `name`, `namespace`, `service_type`, `deleted : bool = false`,
field-wise equality, and the derived stable key `namespace/name`. -/
structure ServiceInfo where
  name : String
  «namespace» : String
  service_type : String
  deleted : Bool := false
deriving DecidableEq, Repr

/-- Modelled from the spec: the derived stable key is the `namespace/name`
concatenation. -/
def ServiceInfo.get_service_key (s : ServiceInfo) : String :=
  s.«namespace» ++ "/" ++ s.name

/-- Metadata of a raw cluster workload object, as used by the sink
(`service.metadata.name`, `service.metadata.namespace`). -/
structure K8sMeta where
  name : String
  «namespace» : String
deriving DecidableEq, Repr

/-- A raw cluster workload object as consumed by `__publish_new_services`
(only `.metadata` and `.kind` are read there). -/
structure RawService where
  metadata : K8sMeta
  kind : String
deriving DecidableEq, Repr

/-- The ServiceInfo the sink builds from a raw snapshot object
(robusta_sink.py lines 76-80): `deleted` is left at its default `false`. -/
def toServiceInfo (s : RawService) : ServiceInfo :=
  { name := s.metadata.name
    «namespace» := s.metadata.«namespace»
    service_type := s.kind
    deleted := false }

/-- The cache key derived from a raw snapshot object. -/
def rawKey (s : RawService) : String :=
  (toServiceInfo s).get_service_key

/-- Association-list embedding of a Python dict keyed by strings:
`d.get(k)` (returns `None` when absent). -/
def dictGet {α : Type} : List (String × α) → String → Option α
  | [], _ => none
  | (k', v) :: rest, k => if k' = k then some v else dictGet rest k

/-- Association-list embedding of `d[k] = v`: replaces the value in place if
the key is present, appends otherwise (Python dicts keep insertion order). -/
def dictSet {α : Type} : List (String × α) → String → α → List (String × α)
  | [], k, v => [(k, v)]
  | (k', v') :: rest, k, v =>
      if k' = k then (k, v) :: rest else (k', v') :: dictSet rest k v

/-- The in-memory services cache `self.__services_cache : Dict[str, ServiceInfo]`. -/
abbrev Cache := List (String × ServiceInfo)

/-- The first loop of `__publish_new_services` (robusta_sink.py lines 74-86):
walks the snapshot in order, collects every derived key into
`active_services_keys`, and for each object whose derived ServiceInfo is
absent from the cache or differs from the cached value, publishes it and
writes it into the cache. Returns (cache, active keys, published list). -/
def phase1 : Cache → List String → List ServiceInfo → List RawService →
    Cache × List String × List ServiceInfo
  | c, keys, pubs, [] => (c, keys, pubs)
  | c, keys, pubs, raw :: rest =>
      let info := toServiceInfo raw
      let k := info.get_service_key
      if dictGet c k = some info then
        phase1 c (keys ++ [k]) pubs rest
      else
        phase1 (dictSet c k info) (keys ++ [k]) (pubs ++ [info]) rest

/-- Result of one `__publish_new_services` call: the new cache, the list of
ServiceInfo passed to `self.dal.persist_service` (in call order), and the
list passed to `TopServiceResolver.store_cached_services`. -/
structure PublishResult where
  cache : Cache
  published : List ServiceInfo
  resolver : List ServiceInfo
deriving Repr

/-- The cache after the first loop of `__publish_new_services`. -/
def cacheAfterPhase1 (cache : Cache) (active : List RawService) : Cache :=
  (phase1 cache [] [] active).1

/-- The services published by the first loop, in call order. -/
def pubsPhase1 (cache : Cache) (active : List RawService) : List ServiceInfo :=
  (phase1 cache [] [] active).2.2

/-- The cache after the second loop of `__publish_new_services` (lines 88-92):
every cached key not in `active_services_keys` is deleted. Iterating over a
snapshot of the keys and deleting the stale ones is a filter that keeps the
active keys in order. -/
def cacheAfterPhase2 (cache : Cache) (active : List RawService) : Cache :=
  (cacheAfterPhase1 cache active).filter
    (fun kv => decide (kv.1 ∈ (phase1 cache [] [] active).2.1))

/-- The `deleted_services` publishes of lines 94-101: every service returned
by `get_active_services` whose key is not cached (per `__is_cached`, checked
against the post-phase-2 cache) is mutated to `deleted = True` and published. -/
def deletedPubs (cache : Cache) (active : List RawService)
    (persisted : List ServiceInfo) : List ServiceInfo :=
  (persisted.filter
      (fun s => decide (dictGet (cacheAfterPhase2 cache active) s.get_service_key = none))).map
    (fun s => { s with deleted := true })

/-- The body of `RobustaSink.__publish_new_services` (robusta_sink.py lines
73-104) as a pure function of the current cache, the snapshot
`active_services`, and the list returned by `self.dal.get_active_services()`:
phase 1 publishes new/changed services and upserts them into the cache;
phase 2 deletes cache keys absent from `active_services_keys`; phase 3 marks
every persisted service whose key is not cached as `deleted = true` and
publishes it (without touching the cache); finally the cache's values are
stored in the resolver. -/
def publish_new_services (cache : Cache) (active : List RawService)
    (persisted : List ServiceInfo) : PublishResult :=
  { cache := cacheAfterPhase2 cache active
    published := pubsPhase1 cache active ++ deletedPubs cache active persisted
    resolver := (cacheAfterPhase2 cache active).map Prod.snd }

/-- Modelled from the spec: the persistence collaborator
(`persist_service` / `get_active_services`) is a store keyed by the service
key, last-write-wins; a service persisted with `deleted = true` is no longer
returned by `get_active_services`. `dalApply` is the effect of one
`persist_service` call on the list `get_active_services` will return. -/
def dalApply (dal : List ServiceInfo) (pub : ServiceInfo) : List ServiceInfo :=
  if pub.deleted then
    dal.filter (fun s => !(decide (s.get_service_key = pub.get_service_key)))
  else
    dal.filter (fun s => !(decide (s.get_service_key = pub.get_service_key))) ++ [pub]

/-- State carried across discovery cycles: the in-memory cache and the
contents of the persisted store's active-services view. -/
structure SysState where
  cache : Cache
  dal : List ServiceInfo
deriving Repr

/-- One discovery cycle: run `__publish_new_services` on a snapshot, then let
the store absorb every `persist_service` call in order. Returns the new state
and the list of services published during the cycle. -/
def runCycle (st : SysState) (snap : List RawService) : SysState × List ServiceInfo :=
  let r := publish_new_services st.cache snap st.dal
  (⟨r.cache, r.published.foldl dalApply st.dal⟩, r.published)

/-- A run of consecutive discovery cycles; returns the final state and the
per-cycle publish lists. -/
def runCycles (st : SysState) : List (List RawService) → SysState × List (List ServiceInfo)
  | [] => (st, [])
  | snap :: rest =>
      let r := runCycle st snap
      let r' := runCycles r.1 rest
      (r'.1, r.2 :: r'.2)

/-- Number of publishes in a list that carry `deleted = true` and a given
service key. -/
def countDeleted (k : String) (l : List ServiceInfo) : Nat :=
  (l.filter (fun s => s.deleted && decide (s.get_service_key = k))).length

/-- Waiting state of a container (`container_status.state.waiting`); `reason`
is optional in the Kubernetes model. -/
structure ContainerStateWaiting where
  reason : Option String
deriving DecidableEq, Repr

/-- Container state; `waiting` is absent unless the container is waiting. -/
structure ContainerState where
  waiting : Option ContainerStateWaiting
deriving DecidableEq, Repr

/-- One entry of `containerStatuses` / `initContainerStatuses`; `state` is an
optional field of the Kubernetes model, so `container_status.state.waiting`
raises AttributeError when it is absent. -/
structure ContainerStatus where
  state : Option ContainerState
deriving DecidableEq, Repr

/-- Owner reference (`metadata.ownerReferences[...]`); `name` is required. -/
structure OwnerReference where
  name : String
deriving DecidableEq, Repr

/-- Pod metadata as read by the trigger: every field is optional in the
Kubernetes object model. -/
structure PodMeta where
  name : Option String
  «namespace» : Option String
  ownerReferences : Option (List OwnerReference)
deriving DecidableEq, Repr

/-- Pod status as read by the trigger. `startTime` is modelled as the value
`parse_kubernetes_datetime_to_ms` would return (epoch milliseconds), `none`
when the field is absent; the two container-status lists are optional. -/
structure PodStatus where
  startTime : Option ℚ
  containerStatuses : Option (List ContainerStatus)
  initContainerStatuses : Option (List ContainerStatus)
deriving DecidableEq, Repr

/-- A pod as read by `should_fire`: `metadata` and `status` are optional in
the object model, and accessing an attribute of an absent one raises. -/
structure Pod where
  metadata : Option PodMeta
  status : Option PodStatus
deriving DecidableEq, Repr

/-- An incoming trigger event, as seen by
`PodImagePullBackoffTrigger.should_fire`. `baseMatch` is modelled from the
spec: the result of the base-class `super().should_fire` name/namespace/label
prefix filter (base_triggers.py is not among the provided sources); `isK8s`
is the `isinstance(event, K8sTriggerEvent)` check; `pod` is `some` exactly
when `build_execution_event` yields a `PodChangeEvent` (type filter), in
which case it carries `exec_event.get_pod()`. -/
structure TriggerEventM where
  baseMatch : Bool
  isK8s : Bool
  pod : Option Pod
deriving Repr

/-- Configuration of the trigger: `rate_limit` and `fire_delay`, with the
defaults of pod_image_pull_backoff.py. -/
structure TriggerConfig where
  rate_limit : Int := 14400
  fire_delay : Int := 120
deriving DecidableEq, Repr

/-- Rate-limiter state: the process-wide map from composite key to the
timestamp of the last admission. -/
abbrev RLState := List (String × ℚ)

/-- Modelled from the spec: `RateLimiter.mark_and_test(scope, entity,
window_seconds)` (robusta/utils/rate_limiter.py is not among the provided
sources). Key is `scope + ":" + entity`; if the key was never admitted or
`now - last >= window_seconds`, record `now` and admit, else suppress without
updating. Returns the decision and the new limiter state. -/
def mark_and_test (rl : RLState) (scope entity : String) (window : Int) (now : ℚ) :
    Bool × RLState :=
  let key := scope ++ ":" ++ entity
  match dictGet rl key with
  | none => (true, dictSet rl key now)
  | some last =>
      if (window : ℚ) ≤ now - last then (true, dictSet rl key now)
      else (false, rl)

/-- The `run_time_seconds` computation of should_fire (lines 49-55): 0 when
`status.startTime` is absent, else `now - startTime_ms / 1000`. -/
def runTimeSeconds (now : ℚ) (startTime : Option ℚ) : ℚ :=
  match startTime with
  | none => 0
  | some ms => now - ms / 1000

/-- Whether one container status passes the list-comprehension predicate of
lines 63-68: `state.waiting is not None and state.waiting.reason ==
"ImagePullBackOff"`, for a status whose `state` is present. -/
def isIPBO (s : ContainerState) : Bool :=
  match s.waiting with
  | none => false
  | some w => decide (w.reason = some "ImagePullBackOff")

/-- The is_backoff list comprehension of lines 62-68, reduced to whether it
is non-empty: walks the concatenated statuses in order; a status with absent
`state` raises AttributeError (modelled as `.error`). -/
def hasBackoff : List ContainerStatus → Except String Bool
  | [] => .ok false
  | cs :: rest =>
      match cs.state with
      | none => .error "AttributeError: NoneType has no attribute waiting"
      | some s =>
          match hasBackoff rest with
          | .error e => .error e
          | .ok b => .ok (isIPBO s || b)

/-- The rate-limit entity name of line 73:
`pod.metadata.ownerReferences[0].name if pod.metadata.ownerReferences else
pod.metadata.name` (a `None` or empty owner list is falsy). -/
def entityName (md : PodMeta) : Option String :=
  match md.ownerReferences with
  | some (o :: _) => some o.name
  | _ => md.name

/-- `PodImagePullBackoffTrigger.should_fire` (pod_image_pull_backoff.py lines
35-79). `.ok (b, rl)` means it returns `b` leaving the rate limiter in state
`rl`; `.error` means a Python exception escapes: accessing `startTime` on an
absent `status`, concatenating absent container-status lists, reading
`.waiting` on an absent container `state`, reading `.ownerReferences` on
absent `metadata`, or concatenating an absent `namespace`/`name` into the
rate-limit entity. -/
def should_fire (cfg : TriggerConfig) (ev : TriggerEventM) (playbook_id : String)
    (now : ℚ) (rl : RLState) : Except String (Bool × RLState) :=
  if ev.baseMatch then
    if ev.isK8s then
      match ev.pod with
      | none => .ok (false, rl)
      | some pod =>
          match pod.status with
          | none => .error "AttributeError: NoneType has no attribute startTime"
          | some status =>
              if (cfg.fire_delay : ℚ) > runTimeSeconds now status.startTime then
                .ok (false, rl)
              else
                match status.containerStatuses, status.initContainerStatuses with
                | some cs, some ics =>
                    (match hasBackoff (cs ++ ics) with
                    | .error e => .error e
                    | .ok false => .ok (false, rl)
                    | .ok true =>
                        match pod.metadata with
                        | none =>
                            .error "AttributeError: NoneType has no attribute ownerReferences"
                        | some md =>
                            match entityName md, md.«namespace» with
                            | some nm, some ns =>
                                .ok (mark_and_test rl
                                  ("PodImagePullBackoffTrigger_" ++ playbook_id)
                                  (ns ++ ":" ++ nm) cfg.rate_limit now)
                            | _, _ =>
                                .error "TypeError: can only concatenate str to str")
                | _, _ =>
                    .error "TypeError: unsupported operand types for list concatenation"
    else .ok (false, rl)
  else .ok (false, rl)

/-- One iteration's body inside the `try` of `RobustaSink.__discover_services`
(robusta_sink.py lines 108-123): fetch the snapshot (which may raise) and run
the diff/publish step. An `.error` models an exception raised by the body. -/
def iterationBody (st : SysState) (fetch : Except String (List RawService)) :
    Except String SysState :=
  match fetch with
  | .error e => .error e
  | .ok snap => .ok (runCycle st snap).1

/-- The `while self.__active` loop of `RobustaSink.__discover_services`
(robusta_sink.py lines 106-132): each list element is the behaviour of the
cluster fetch for one iteration performed while the active flag is true; an
exception from the body is caught (`except Exception`), logged, and the loop
sleeps and continues. Returns the final state and the number of iterations
that were executed. -/
def discover_services (st : SysState) :
    List (Except String (List RawService)) → SysState × Nat
  | [] => (st, 0)
  | f :: rest =>
      let st1 := match iterationBody st f with
        | .ok s => s
        | .error _ => st
      let r := discover_services st1 rest
      (r.1, r.2 + 1)

/-- Whether a container status passes the backoff predicate, for any status:
`false` when `state` is absent (though the code would raise there). -/
def statusIPBO (c : ContainerStatus) : Bool :=
  match c.state with
  | none => false
  | some s => isIPBO s

/-! ### Concrete inputs used by the witnesses -/

/-- A concrete raw Deployment object. -/
def rawA : RawService := ⟨⟨"a", "ns"⟩, "Deployment"⟩

/-- The ServiceInfo derived from `rawA`. -/
def infoA : ServiceInfo := toServiceInfo rawA

/-- A concrete pod metadata block whose first owner reference is named
`owner`. -/
def mdC6 : PodMeta := ⟨some "p", some "ns", some [⟨"owner"⟩]⟩

/-- A concrete pod status: started at epoch 0 ms, one container waiting with
reason ImagePullBackOff. -/
def stC6 : PodStatus :=
  ⟨some 0, some [⟨some ⟨some ⟨some "ImagePullBackOff"⟩⟩⟩], some []⟩

/-- A concrete pod in image-pull backoff, owned by a controller. -/
def podC6 : Pod := ⟨some mdC6, some stC6⟩

/-- A concrete pod status with no `startTime`. -/
def stNoStart : PodStatus := ⟨none, some [], some []⟩

/-- A concrete pod lacking `status.startTime`. -/
def podNoStart : Pod := ⟨some mdC6, some stNoStart⟩

/-- A concrete pod whose only waiting reason is CrashLoopBackOff. -/
def podCrash : Pod :=
  ⟨some mdC6, some ⟨some 0, some [⟨some ⟨some ⟨some "CrashLoopBackOff"⟩⟩⟩], some []⟩⟩

/-! ### Lemmas about the dict embedding -/

theorem dictGet_dictSet_self {α : Type} (c : List (String × α)) (k : String) (v : α) :
    dictGet (dictSet c k v) k = some v := by
  induction c with
  | nil => simp [dictGet, dictSet]
  | cons p rest ih =>
      by_cases h : p.1 = k
      · simp [dictSet, dictGet, h]
      · simpa [dictSet, dictGet, h] using ih

theorem dictGet_dictSet_ne {α : Type} (c : List (String × α)) (k k' : String) (v : α)
    (h : k ≠ k') : dictGet (dictSet c k v) k' = dictGet c k' := by
  induction c with
  | nil => simp [dictGet, dictSet, h]
  | cons p rest ih =>
      by_cases hp : p.1 = k
      · simp only [dictSet, hp, if_pos rfl]
        simp [dictGet, h, hp]
      · simp only [dictSet, hp, if_neg hp]
        by_cases hp' : p.1 = k'
        · simp [dictGet, hp']
        · simpa [dictGet, hp'] using ih

theorem dictGet_dictSet_isSome {α : Type} (c : List (String × α)) (k₀ k : String) (v : α)
    (h : dictGet c k ≠ none) : dictGet (dictSet c k₀ v) k ≠ none := by
  by_cases hk : k₀ = k
  · subst hk; simp [dictGet_dictSet_self]
  · rw [dictGet_dictSet_ne _ _ _ _ hk]; exact h

theorem mem_dictSet {α : Type} {p : String × α} {c : List (String × α)} {k : String} {v : α}
    (h : p ∈ dictSet c k v) : p ∈ c ∨ p = (k, v) := by
  induction c with
  | nil => simpa [dictSet] using h
  | cons q rest ih =>
      by_cases hq : q.1 = k
      · simp only [dictSet, if_pos hq, List.mem_cons] at h
        rcases h with h | h
        · exact Or.inr h
        · exact Or.inl (List.mem_cons_of_mem _ h)
      · simp only [dictSet, if_neg hq, List.mem_cons] at h
        rcases h with h | h
        · exact Or.inl (h ▸ List.mem_cons_self _ _)
        · rcases ih h with h' | h'
          · exact Or.inl (List.mem_cons_of_mem _ h')
          · exact Or.inr h'

theorem dictGet_eq_none_iff {α : Type} (c : List (String × α)) (k : String) :
    dictGet c k = none ↔ ∀ p ∈ c, p.1 ≠ k := by
  induction c with
  | nil => simp [dictGet]
  | cons p rest ih =>
      by_cases hp : p.1 = k
      · simp [dictGet, hp]
      · simp [dictGet, hp, ih]

theorem dictGet_filter_mem {α : Type} (c : List (String × α)) (keys : List String) (k : String) :
    dictGet (c.filter (fun kv => decide (kv.1 ∈ keys))) k =
      if k ∈ keys then dictGet c k else none := by
  induction c with
  | nil => simp [dictGet]
  | cons p rest ih =>
      rcases p with ⟨pk, pv⟩
      by_cases hp : pk = k
      · subst hp
        by_cases hf : pk ∈ keys
        · simp [List.filter_cons, hf, dictGet]
        · simp [List.filter_cons, hf, ih, dictGet]
      · by_cases hf : pk ∈ keys
        · simp [List.filter_cons, hf, dictGet, hp, ih]
        · simp [List.filter_cons, hf, ih, dictGet, hp]

/-! ### Lemmas about the first loop of `__publish_new_services` -/

theorem phase1_keys (l : List RawService) :
    ∀ (c : Cache) (keys : List String) (pubs : List ServiceInfo),
    (phase1 c keys pubs l).2.1 = keys ++ l.map rawKey := by
  induction l with
  | nil => intro c keys pubs; simp [phase1]
  | cons raw rest ih =>
      intro c keys pubs
      simp only [phase1]
      by_cases h : dictGet c ((toServiceInfo raw).get_service_key) = some (toServiceInfo raw)
      · rw [if_pos h, ih]
        simp [rawKey]
      · rw [if_neg h, ih]
        simp [rawKey]

theorem phase1_get_preserve (l : List RawService) :
    ∀ (c : Cache) (keys : List String) (pubs : List ServiceInfo) (k : String),
    k ∉ l.map rawKey → dictGet (phase1 c keys pubs l).1 k = dictGet c k := by
  induction l with
  | nil => intro c keys pubs k _; simp [phase1]
  | cons raw rest ih =>
      intro c keys pubs k hk
      simp only [List.map_cons, List.mem_cons, not_or] at hk
      simp only [phase1]
      by_cases h : dictGet c ((toServiceInfo raw).get_service_key) = some (toServiceInfo raw)
      · rw [if_pos h, ih _ _ _ _ hk.2]
      · rw [if_neg h, ih _ _ _ _ hk.2,
          dictGet_dictSet_ne _ _ _ _ (fun he => hk.1 (by rw [rawKey, he]))]

theorem phase1_get_isSome (l : List RawService) :
    ∀ (c : Cache) (keys : List String) (pubs : List ServiceInfo) (k : String),
    dictGet c k ≠ none → dictGet (phase1 c keys pubs l).1 k ≠ none := by
  induction l with
  | nil => intro c keys pubs k h; simpa [phase1] using h
  | cons raw rest ih =>
      intro c keys pubs k hk
      simp only [phase1]
      by_cases h : dictGet c ((toServiceInfo raw).get_service_key) = some (toServiceInfo raw)
      · rw [if_pos h]; exact ih _ _ _ _ hk
      · rw [if_neg h]
        exact ih _ _ _ _ (dictGet_dictSet_isSome _ _ _ _ hk)

theorem phase1_get_mem_isSome (l : List RawService) :
    ∀ (c : Cache) (keys : List String) (pubs : List ServiceInfo) (k : String),
    k ∈ l.map rawKey → dictGet (phase1 c keys pubs l).1 k ≠ none := by
  induction l with
  | nil => intro c keys pubs k h; simp at h
  | cons raw rest ih =>
      intro c keys pubs k hk
      simp only [List.map_cons, List.mem_cons] at hk
      simp only [phase1]
      by_cases h : dictGet c ((toServiceInfo raw).get_service_key) = some (toServiceInfo raw)
      · rw [if_pos h]
        rcases hk with hk | hk
        · refine phase1_get_isSome _ _ _ _ _ ?_
          rw [hk, rawKey, h]
          exact Option.some_ne_none _
        · exact ih _ _ _ _ hk
      · rw [if_neg h]
        rcases hk with hk | hk
        · refine phase1_get_isSome _ _ _ _ _ ?_
          rw [hk, rawKey, dictGet_dictSet_self]
          exact Option.some_ne_none _
        · exact ih _ _ _ _ hk

theorem phase1_get_of_nodup (l : List RawService) :
    ∀ (c : Cache) (keys : List String) (pubs : List ServiceInfo),
    (l.map rawKey).Nodup →
    ∀ raw ∈ l, dictGet (phase1 c keys pubs l).1 (rawKey raw) = some (toServiceInfo raw) := by
  induction l with
  | nil => intro c keys pubs _ raw h; simp at h
  | cons raw₀ rest ih =>
      intro c keys pubs hnd raw hraw
      simp only [List.map_cons, List.nodup_cons] at hnd
      rcases List.mem_cons.mp hraw with hr | hr
      · subst hr
        simp only [phase1]
        by_cases h : dictGet c ((toServiceInfo raw).get_service_key) = some (toServiceInfo raw)
        · rw [if_pos h, phase1_get_preserve _ _ _ _ _ hnd.1]
          exact h
        · rw [if_neg h, phase1_get_preserve _ _ _ _ _ hnd.1, rawKey, dictGet_dictSet_self]
      · simp only [phase1]
        by_cases h : dictGet c ((toServiceInfo raw₀).get_service_key) = some (toServiceInfo raw₀)
        · rw [if_pos h]
          exact ih _ _ _ hnd.2 raw hr
        · rw [if_neg h]
          exact ih _ _ _ hnd.2 raw hr

theorem mem_phase1_cache (l : List RawService) :
    ∀ (c : Cache) (keys : List String) (pubs : List ServiceInfo) (p : String × ServiceInfo),
    p ∈ (phase1 c keys pubs l).1 →
    p ∈ c ∨ ∃ raw ∈ l, p = (rawKey raw, toServiceInfo raw) := by
  induction l with
  | nil => intro c keys pubs p h; exact Or.inl (by simpa [phase1] using h)
  | cons raw₀ rest ih =>
      intro c keys pubs p hp
      simp only [phase1] at hp
      by_cases h : dictGet c ((toServiceInfo raw₀).get_service_key) = some (toServiceInfo raw₀)
      · rw [if_pos h] at hp
        rcases ih _ _ _ _ hp with h' | ⟨raw, hraw, he⟩
        · exact Or.inl h'
        · exact Or.inr ⟨raw, List.mem_cons_of_mem _ hraw, he⟩
      · rw [if_neg h] at hp
        rcases ih _ _ _ _ hp with h' | ⟨raw, hraw, he⟩
        · rcases mem_dictSet h' with h'' | h''
          · exact Or.inl h''
          · exact Or.inr ⟨raw₀, List.mem_cons_self _ _, by rw [h'', rawKey]⟩
        · exact Or.inr ⟨raw, List.mem_cons_of_mem _ hraw, he⟩

theorem mem_phase1_pubs (l : List RawService) :
    ∀ (c : Cache) (keys : List String) (pubs : List ServiceInfo) (s : ServiceInfo),
    s ∈ (phase1 c keys pubs l).2.2 →
    s ∈ pubs ∨ ∃ raw ∈ l, s = toServiceInfo raw := by
  induction l with
  | nil => intro c keys pubs s h; exact Or.inl (by simpa [phase1] using h)
  | cons raw₀ rest ih =>
      intro c keys pubs s hs
      simp only [phase1] at hs
      by_cases h : dictGet c ((toServiceInfo raw₀).get_service_key) = some (toServiceInfo raw₀)
      · rw [if_pos h] at hs
        rcases ih _ _ _ _ hs with h' | ⟨raw, hraw, he⟩
        · exact Or.inl h'
        · exact Or.inr ⟨raw, List.mem_cons_of_mem _ hraw, he⟩
      · rw [if_neg h] at hs
        rcases ih _ _ _ _ hs with h' | ⟨raw, hraw, he⟩
        · rcases List.mem_append.mp h' with h'' | h''
          · exact Or.inl h''
          · exact Or.inr ⟨raw₀, List.mem_cons_self _ _, by simpa using h''⟩
        · exact Or.inr ⟨raw, List.mem_cons_of_mem _ hraw, he⟩

theorem phase1_noop (l : List RawService) :
    ∀ (c : Cache) (keys : List String) (pubs : List ServiceInfo),
    (∀ raw ∈ l, dictGet c (rawKey raw) = some (toServiceInfo raw)) →
    phase1 c keys pubs l = (c, keys ++ l.map rawKey, pubs) := by
  induction l with
  | nil => intro c keys pubs _; simp [phase1]
  | cons raw₀ rest ih =>
      intro c keys pubs h
      have h₀ := h raw₀ (List.mem_cons_self _ _)
      rw [rawKey] at h₀
      simp only [phase1]
      rw [if_pos h₀, ih _ _ _ (fun raw hr => h raw (List.mem_cons_of_mem _ hr))]
      simp [rawKey]

/-! ### Lemmas about `__publish_new_services` -/

theorem cacheAfterPhase2_get (cache : Cache) (active : List RawService) (k : String) :
    dictGet (cacheAfterPhase2 cache active) k =
      if k ∈ active.map rawKey then dictGet (cacheAfterPhase1 cache active) k else none := by
  rw [cacheAfterPhase2, cacheAfterPhase1, dictGet_filter_mem]
  simp [phase1_keys]

theorem cacheAfterPhase2_get_active (cache : Cache) (active : List RawService)
    (hnd : (active.map rawKey).Nodup) :
    ∀ raw ∈ active,
    dictGet (cacheAfterPhase2 cache active) (rawKey raw) = some (toServiceInfo raw) := by
  intro raw hraw
  rw [cacheAfterPhase2_get, if_pos (List.mem_map_of_mem _ hraw)]
  exact phase1_get_of_nodup active cache [] [] hnd raw hraw

theorem cacheAfterPhase2_get_none (cache : Cache) (active : List RawService) (k : String)
    (hk : k ∉ active.map rawKey) : dictGet (cacheAfterPhase2 cache active) k = none := by
  rw [cacheAfterPhase2_get, if_neg hk]

theorem cacheAfterPhase2_get_isSome (cache : Cache) (active : List RawService) (k : String)
    (hk : k ∈ active.map rawKey) : dictGet (cacheAfterPhase2 cache active) k ≠ none := by
  rw [cacheAfterPhase2_get, if_pos hk]
  exact phase1_get_mem_isSome active cache [] [] k hk

theorem mem_cacheAfterPhase2 (cache : Cache) (active : List RawService)
    (p : String × ServiceInfo) (hp : p ∈ cacheAfterPhase2 cache active) :
    p ∈ cache ∨ ∃ raw ∈ active, p = (rawKey raw, toServiceInfo raw) :=
  mem_phase1_cache active cache [] [] p (List.mem_of_mem_filter hp)

theorem mem_cacheAfterPhase2_key (cache : Cache) (active : List RawService)
    (p : String × ServiceInfo) (hp : p ∈ cacheAfterPhase2 cache active) :
    p.1 ∈ active.map rawKey := by
  have := List.of_mem_filter hp
  simpa [phase1_keys] using this

theorem cacheAfterPhase2_noop (cache : Cache) (active : List RawService)
    (h1 : ∀ raw ∈ active, dictGet cache (rawKey raw) = some (toServiceInfo raw))
    (h2 : ∀ p ∈ cache, p.1 ∈ active.map rawKey) :
    cacheAfterPhase2 cache active = cache := by
  rw [cacheAfterPhase2, cacheAfterPhase1, phase1_noop active cache [] [] h1]
  exact List.filter_eq_self.mpr (fun p hp => by simpa using h2 p hp)

theorem pubsPhase1_noop (cache : Cache) (active : List RawService)
    (h1 : ∀ raw ∈ active, dictGet cache (rawKey raw) = some (toServiceInfo raw)) :
    pubsPhase1 cache active = [] := by
  rw [pubsPhase1, phase1_noop active cache [] [] h1]

theorem deletedPubs_none (cache : Cache) (active : List RawService)
    (persisted : List ServiceInfo)
    (h : ∀ s ∈ persisted, dictGet (cacheAfterPhase2 cache active) s.get_service_key ≠ none) :
    deletedPubs cache active persisted = [] := by
  have hf : persisted.filter
      (fun s => decide (dictGet (cacheAfterPhase2 cache active) s.get_service_key = none)) = [] :=
    List.filter_eq_nil_iff.mpr (fun s hs => by simpa using h s hs)
  rw [deletedPubs, hf, List.map_nil]

theorem publish_new_services_noop (cache : Cache) (active : List RawService)
    (persisted : List ServiceInfo)
    (h1 : ∀ raw ∈ active, dictGet cache (rawKey raw) = some (toServiceInfo raw))
    (h2 : ∀ p ∈ cache, p.1 ∈ active.map rawKey)
    (h3 : ∀ s ∈ persisted, dictGet cache s.get_service_key ≠ none) :
    publish_new_services cache active persisted = ⟨cache, [], cache.map Prod.snd⟩ := by
  have hc2 := cacheAfterPhase2_noop cache active h1 h2
  have hd := deletedPubs_none cache active persisted
    (fun s hs => by rw [hc2]; exact h3 s hs)
  rw [publish_new_services, pubsPhase1_noop cache active h1, hd, hc2]
  rfl

/-! ### Lemmas about the persisted store across cycles -/

theorem mem_dalApply {dal : List ServiceInfo} {p s : ServiceInfo}
    (h : s ∈ dalApply dal p) : s ∈ dal ∨ (s = p ∧ p.deleted = false) := by
  rw [dalApply] at h
  by_cases hd : p.deleted
  · rw [if_pos hd] at h
    exact Or.inl (List.mem_of_mem_filter h)
  · rw [if_neg hd] at h
    rcases List.mem_append.mp h with h' | h'
    · exact Or.inl (List.mem_of_mem_filter h')
    · refine Or.inr ⟨by simpa using h', by simpa using hd⟩

theorem mem_foldl_dalApply (pubs : List ServiceInfo) :
    ∀ (dal : List ServiceInfo) (s : ServiceInfo), s ∈ pubs.foldl dalApply dal →
    s ∈ dal ∨ ∃ p ∈ pubs, s = p ∧ p.deleted = false := by
  induction pubs with
  | nil => intro dal s h; exact Or.inl h
  | cons p rest ih =>
      intro dal s h
      rw [List.foldl_cons] at h
      rcases ih _ _ h with h' | ⟨q, hq, he⟩
      · rcases mem_dalApply h' with h'' | h''
        · exact Or.inl h''
        · exact Or.inr ⟨p, List.mem_cons_self _ _, h''⟩
      · exact Or.inr ⟨q, List.mem_cons_of_mem _ hq, he⟩

theorem foldl_dalApply_key_free (k : String) (pubs : List ServiceInfo) :
    ∀ dal, (∀ s ∈ dal, s.get_service_key ≠ k) → (∀ p ∈ pubs, p.get_service_key ≠ k) →
    ∀ s ∈ pubs.foldl dalApply dal, s.get_service_key ≠ k := by
  intro dal hdal hpubs s hs
  rcases mem_foldl_dalApply pubs dal s hs with h | ⟨p, hp, he, _⟩
  · exact hdal s h
  · exact he ▸ hpubs p hp

theorem foldl_dalApply_removed (k : String) (pubs : List ServiceInfo) :
    ∀ dal, (∀ p ∈ pubs, p.get_service_key = k → p.deleted = true) →
    (∃ p ∈ pubs, p.get_service_key = k) →
    ∀ s ∈ pubs.foldl dalApply dal, s.get_service_key ≠ k := by
  induction pubs with
  | nil =>
      intro dal _ hex
      rcases hex with ⟨p, hp, _⟩
      simp at hp
  | cons p rest ih =>
      intro dal hdel hex
      rw [List.foldl_cons]
      by_cases hr : ∃ q ∈ rest, q.get_service_key = k
      · exact ih _ (fun q hq hk => hdel q (List.mem_cons_of_mem _ hq) hk) hr
      · have hpk : p.get_service_key = k := by
          rcases hex with ⟨q, hq, hk⟩
          rcases List.mem_cons.mp hq with h | h
          · exact h ▸ hk
          · exact absurd ⟨q, h, hk⟩ hr
        have hpd : p.deleted = true := hdel p (List.mem_cons_self _ _) hpk
        have hfree : ∀ s ∈ dalApply dal p, s.get_service_key ≠ k := by
          intro s hs
          rw [dalApply, if_pos hpd] at hs
          have hns := List.of_mem_filter hs
          simp only [Bool.not_eq_true', decide_eq_false_iff_not] at hns
          intro he
          exact hns (he.trans hpk.symm)
        intro s hs
        exact foldl_dalApply_key_free k rest _ hfree
          (fun q hq hk => absurd ⟨q, hq, hk⟩ hr) s hs

/-! ### Lemmas about counting deleted publishes -/

theorem countDeleted_append (k : String) (l₁ l₂ : List ServiceInfo) :
    countDeleted k (l₁ ++ l₂) = countDeleted k l₁ + countDeleted k l₂ := by
  simp [countDeleted, List.filter_append]

theorem countDeleted_eq_zero (k : String) (l : List ServiceInfo)
    (h : ∀ s ∈ l, s.deleted = false ∨ s.get_service_key ≠ k) :
    countDeleted k l = 0 := by
  rw [countDeleted, List.length_eq_zero]
  refine List.filter_eq_nil_iff.mpr (fun s hs => ?_)
  rcases h s hs with h' | h' <;> simp [h']

theorem countDeleted_pubsPhase1 (k : String) (cache : Cache) (active : List RawService) :
    countDeleted k (pubsPhase1 cache active) = 0 := by
  refine countDeleted_eq_zero k _ (fun s hs => ?_)
  rcases mem_phase1_pubs active cache [] [] s hs with h | ⟨raw, _, he⟩
  · simp at h
  · exact Or.inl (by rw [he, toServiceInfo])

theorem get_service_key_set_deleted (s : ServiceInfo) :
    ServiceInfo.get_service_key { s with deleted := true } = s.get_service_key := rfl

theorem countDeleted_deletedPubs (cache : Cache) (active : List RawService)
    (persisted : List ServiceInfo) (k : String)
    (hnone : dictGet (cacheAfterPhase2 cache active) k = none) :
    countDeleted k (deletedPubs cache active persisted) =
      (persisted.filter (fun s => decide (s.get_service_key = k))).length := by
  rw [countDeleted, deletedPubs, List.filter_map, List.length_map, List.filter_filter]
  congr 1
  refine List.filter_congr (fun s _ => ?_)
  by_cases hk : s.get_service_key = k
  · simp [Function.comp, get_service_key_set_deleted, hk, hnone]
  · simp [Function.comp, get_service_key_set_deleted, hk]

/-! ### Per-cycle lemmas for deletion reconciliation -/

theorem runCycle_cache (st : SysState) (snap : List RawService) :
    (runCycle st snap).1.cache = cacheAfterPhase2 st.cache snap := rfl

theorem runCycle_pubs (st : SysState) (snap : List RawService) :
    (runCycle st snap).2 = pubsPhase1 st.cache snap ++ deletedPubs st.cache snap st.dal := rfl

theorem runCycle_dal (st : SysState) (snap : List RawService) :
    (runCycle st snap).1.dal =
      (pubsPhase1 st.cache snap ++ deletedPubs st.cache snap st.dal).foldl dalApply st.dal := rfl

theorem mem_pubsPhase1_key (cache : Cache) (active : List RawService) (s : ServiceInfo)
    (hs : s ∈ pubsPhase1 cache active) : s.get_service_key ∈ active.map rawKey := by
  rcases mem_phase1_pubs active cache [] [] s hs with h | ⟨raw, hraw, he⟩
  · simp at h
  · rw [he]
    exact List.mem_map_of_mem _ hraw

theorem mem_deletedPubs_shape (cache : Cache) (active : List RawService)
    (persisted : List ServiceInfo) (p : ServiceInfo)
    (hp : p ∈ deletedPubs cache active persisted) :
    ∃ s ∈ persisted, p = { s with deleted := true } ∧
      dictGet (cacheAfterPhase2 cache active) s.get_service_key = none := by
  rw [deletedPubs] at hp
  rcases List.mem_map.mp hp with ⟨s, hs, he⟩
  have h1 := List.mem_of_mem_filter hs
  have h2 := List.of_mem_filter hs
  simp only [decide_eq_true_eq] at h2
  exact ⟨s, h1, he.symm, h2⟩

/-- The first cycle in which a cached-and-persisted service key is absent
from the snapshot: exactly one deleted-publish for that key is emitted, the
key leaves the cache, and the key leaves the persisted active view. -/
theorem runCycle_first_absent (st : SysState) (snap : List RawService) (k : String)
    (hdal : (st.dal.filter (fun s => decide (s.get_service_key = k))).length = 1)
    (habs : ∀ raw ∈ snap, rawKey raw ≠ k) :
    countDeleted k (runCycle st snap).2 = 1 ∧
    dictGet (runCycle st snap).1.cache k = none ∧
    (∀ s ∈ (runCycle st snap).1.dal, s.get_service_key ≠ k) := by
  have hkmem : k ∉ snap.map rawKey := by
    intro hk
    rcases List.mem_map.mp hk with ⟨raw, hraw, he⟩
    exact habs raw hraw he
  have hnone : dictGet (cacheAfterPhase2 st.cache snap) k = none :=
    cacheAfterPhase2_get_none st.cache snap k hkmem
  refine ⟨?_, ?_, ?_⟩
  · rw [runCycle_pubs, countDeleted_append, countDeleted_pubsPhase1,
      countDeleted_deletedPubs st.cache snap st.dal k hnone, hdal]
  · rw [runCycle_cache]
    exact hnone
  · rw [runCycle_dal]
    have hex : ∃ p ∈ pubsPhase1 st.cache snap ++ deletedPubs st.cache snap st.dal,
        p.get_service_key = k := by
      have hne : st.dal.filter (fun s => decide (s.get_service_key = k)) ≠ [] := by
        intro h
        rw [h] at hdal
        simp at hdal
      rcases List.exists_mem_of_ne_nil _ hne with ⟨s, hs⟩
      have hsk : s.get_service_key = k := by simpa using List.of_mem_filter hs
      have hsd : s ∈ st.dal := List.mem_of_mem_filter hs
      refine ⟨{ s with deleted := true }, List.mem_append_right _ ?_,
        by rw [get_service_key_set_deleted]; exact hsk⟩
      rw [deletedPubs]
      refine List.mem_map.mpr ⟨s, List.mem_filter.mpr ⟨hsd, ?_⟩, rfl⟩
      simp [hsk, hnone]
    refine foldl_dalApply_removed k _ st.dal (fun p hp hk => ?_) hex
    rcases List.mem_append.mp hp with h | h
    · exact absurd (hk ▸ mem_pubsPhase1_key st.cache snap p h) hkmem
    · rcases mem_deletedPubs_shape st.cache snap st.dal p h with ⟨s, _, he, _⟩
      rw [he]

/-- A cycle in which a key is absent from the snapshot, the cache, and the
persisted active view: no deleted-publish for that key is emitted and the key
stays absent from cache and store. -/
theorem runCycle_key_free (st : SysState) (snap : List RawService) (k : String)
    (hdal : ∀ s ∈ st.dal, s.get_service_key ≠ k)
    (habs : ∀ raw ∈ snap, rawKey raw ≠ k) :
    countDeleted k (runCycle st snap).2 = 0 ∧
    dictGet (runCycle st snap).1.cache k = none ∧
    (∀ s ∈ (runCycle st snap).1.dal, s.get_service_key ≠ k) := by
  have hkmem : k ∉ snap.map rawKey := by
    intro hk
    rcases List.mem_map.mp hk with ⟨raw, hraw, he⟩
    exact habs raw hraw he
  have hnone : dictGet (cacheAfterPhase2 st.cache snap) k = none :=
    cacheAfterPhase2_get_none st.cache snap k hkmem
  have hfilter : st.dal.filter (fun s => decide (s.get_service_key = k)) = [] :=
    List.filter_eq_nil_iff.mpr (fun s hs => by simpa using hdal s hs)
  refine ⟨?_, ?_, ?_⟩
  · rw [runCycle_pubs, countDeleted_append, countDeleted_pubsPhase1,
      countDeleted_deletedPubs st.cache snap st.dal k hnone, hfilter]
    rfl
  · rw [runCycle_cache]
    exact hnone
  · rw [runCycle_dal]
    refine foldl_dalApply_key_free k _ st.dal hdal (fun p hp => ?_) 
    rcases List.mem_append.mp hp with h | h
    · intro hk
      exact absurd (hk ▸ mem_pubsPhase1_key st.cache snap p h) hkmem
    · rcases mem_deletedPubs_shape st.cache snap st.dal p h with ⟨s, hs, he, _⟩
      rw [he, get_service_key_set_deleted]
      exact hdal s hs

theorem runCycles_key_free (k : String) (snaps : List (List RawService)) :
    ∀ st : SysState, (∀ s ∈ st.dal, s.get_service_key ≠ k) →
    (∀ snap ∈ snaps, ∀ raw ∈ snap, rawKey raw ≠ k) →
    ∀ l ∈ (runCycles st snaps).2, countDeleted k l = 0 := by
  induction snaps with
  | nil => intro st _ _ l hl; simp [runCycles] at hl
  | cons snap rest ih =>
      intro st hdal habs l hl
      have hstep := runCycle_key_free st snap k hdal
        (habs snap (List.mem_cons_self _ _))
      simp only [runCycles, List.mem_cons] at hl
      rcases hl with hl | hl
      · exact hl ▸ hstep.1
      · exact ih (runCycle st snap).1 hstep.2.2
          (fun s hs => habs s (List.mem_cons_of_mem _ hs)) l hl

/-! ### Further characterizations -/

theorem cacheAfterPhase2_get_none_iff (cache : Cache) (active : List RawService) (k : String) :
    dictGet (cacheAfterPhase2 cache active) k = none ↔ k ∉ active.map rawKey := by
  constructor
  · intro h hk
    exact cacheAfterPhase2_get_isSome cache active k hk h
  · exact cacheAfterPhase2_get_none cache active k

theorem deletedPubs_char (cache : Cache) (active : List RawService)
    (persisted : List ServiceInfo) :
    deletedPubs cache active persisted =
      (persisted.filter (fun s => decide (s.get_service_key ∉ active.map rawKey))).map
        (fun s => { s with deleted := true }) := by
  rw [deletedPubs]
  congr 1
  refine List.filter_congr (fun s _ => ?_)
  simp [cacheAfterPhase2_get_none_iff]

theorem published_filter_deleted (cache : Cache) (active : List RawService)
    (persisted : List ServiceInfo) :
    (publish_new_services cache active persisted).published.filter (fun s => s.deleted) =
      deletedPubs cache active persisted := by
  rw [publish_new_services]
  simp only [List.filter_append]
  have h1 : (pubsPhase1 cache active).filter (fun s => s.deleted) = [] := by
    refine List.filter_eq_nil_iff.mpr (fun s hs => ?_)
    rcases mem_phase1_pubs active cache [] [] s hs with h | ⟨raw, _, he⟩
    · simp at h
    · rw [he, toServiceInfo]
      simp
  have h2 : (deletedPubs cache active persisted).filter (fun s => s.deleted) =
      deletedPubs cache active persisted := by
    refine List.filter_eq_self.mpr (fun p hp => ?_)
    rcases mem_deletedPubs_shape cache active persisted p hp with ⟨s, _, he, _⟩
    rw [he]
  rw [h1, h2, List.nil_append]

theorem publish_new_services_deleted_false (cache : Cache) (active : List RawService)
    (persisted : List ServiceInfo) (h : ∀ p ∈ cache, p.2.deleted = false) :
    (∀ p ∈ (publish_new_services cache active persisted).cache, p.2.deleted = false) ∧
    (∀ v ∈ (publish_new_services cache active persisted).resolver, v.deleted = false) := by
  have hc : ∀ p ∈ cacheAfterPhase2 cache active, p.2.deleted = false := by
    intro p hp
    rcases mem_cacheAfterPhase2 cache active p hp with h' | ⟨raw, _, he⟩
    · exact h p h'
    · rw [he, toServiceInfo]
  refine ⟨hc, fun v hv => ?_⟩
  rcases List.mem_map.mp hv with ⟨p, hp, he⟩
  exact he ▸ hc p hp

theorem runCycle_dal_cached (st : SysState) (snap : List RawService) :
    ∀ s ∈ (runCycle st snap).1.dal,
    dictGet (runCycle st snap).1.cache s.get_service_key ≠ none := by
  intro s hs
  rw [runCycle_cache]
  by_cases hdg : dictGet (cacheAfterPhase2 st.cache snap) s.get_service_key = none
  · exfalso
    rw [runCycle_dal] at hs
    have hpubs1_key : ∀ p ∈ pubsPhase1 st.cache snap,
        p.get_service_key ≠ s.get_service_key := by
      intro p hp he
      exact cacheAfterPhase2_get_isSome st.cache snap _
        (he ▸ mem_pubsPhase1_key st.cache snap p hp) hdg
    rcases mem_foldl_dalApply _ st.dal s hs with hmem | ⟨p, hp, he, hdel⟩
    · have hsdel : { s with deleted := true } ∈ deletedPubs st.cache snap st.dal := by
        rw [deletedPubs]
        refine List.mem_map.mpr ⟨s, List.mem_filter.mpr ⟨hmem, by simpa using hdg⟩, rfl⟩
      have hrem := foldl_dalApply_removed s.get_service_key
        (pubsPhase1 st.cache snap ++ deletedPubs st.cache snap st.dal) st.dal
        (fun p hp hk => ?_) ⟨{ s with deleted := true },
          List.mem_append_right _ hsdel, get_service_key_set_deleted s⟩ s hs
      · exact hrem rfl
      · rcases List.mem_append.mp hp with h | h
        · exact absurd hk (hpubs1_key p h)
        · rcases mem_deletedPubs_shape st.cache snap st.dal p h with ⟨t, _, he, _⟩
          rw [he]
    · rcases List.mem_append.mp hp with h | h
      · exact hpubs1_key p h (he ▸ rfl)
      · rcases mem_deletedPubs_shape st.cache snap st.dal p h with ⟨t, _, he', _⟩
        rw [he'] at hdel
        simp at hdel
  · exact hdg

/-! ### Lemmas about the trigger -/

theorem hasBackoff_ok_false (l : List ContainerStatus)
    (hst : ∀ c ∈ l, c.state ≠ none)
    (hnb : ∀ c ∈ l, statusIPBO c = false) :
    hasBackoff l = .ok false := by
  induction l with
  | nil => rfl
  | cons c rest ih =>
      rcases hc : c.state with _ | s
      · exact absurd hc (hst c (List.mem_cons_self _ _))
      · have hrest := ih (fun d hd => hst d (List.mem_cons_of_mem _ hd))
          (fun d hd => hnb d (List.mem_cons_of_mem _ hd))
        have hcb : isIPBO s = false := by
          have := hnb c (List.mem_cons_self _ _)
          rwa [statusIPBO, hc] at this
        rw [hasBackoff, hc, hrest]
        simp [hcb]

/-! ### Claim theorems -/

/-- C1: the claim says `PodImagePullBackoffTrigger.should_fire` never raises,
and that a missing field — the spec's own example is an absent status block —
makes it return false. The code contradicts this: for an event that passes
the base and type filters but whose pod has no `status`, line 52
(`pod.status.startTime`) raises AttributeError, which escapes the evaluator.
This theorem evaluates the embedded `should_fire` at that failing input. -/
theorem C1_missing_status_raises :
    should_fire {} ⟨true, true, some ⟨some mdC6, none⟩⟩ "pb" 1000 [] =
      .error "AttributeError: NoneType has no attribute startTime" := by
  simp [should_fire]

/-- C2: once a service that is cached and persisted as active (exactly one
store entry under its key) disappears from the snapshots, the first cycle
publishes exactly one deleted=true record for its key, and no later cycle
publishes a deleted record for it again — because the store, which drops a
service persisted with deleted=true from `get_active_services`, no longer
returns it and the cache no longer holds it. -/
theorem C2_deleted_published_exactly_once (st : SysState) (k : String)
    (s₀ : List RawService) (snaps : List (List RawService))
    (hcached : dictGet st.cache k ≠ none)
    (hdal : (st.dal.filter (fun s => decide (s.get_service_key = k))).length = 1)
    (habs : ∀ snap ∈ s₀ :: snaps, ∀ raw ∈ snap, rawKey raw ≠ k) :
    countDeleted k (runCycle st s₀).2 = 1 ∧
    ∀ l ∈ (runCycles (runCycle st s₀).1 snaps).2, countDeleted k l = 0 := by
  have h1 := runCycle_first_absent st s₀ k hdal (habs s₀ (List.mem_cons_self _ _))
  exact ⟨h1.1, runCycles_key_free k snaps _ h1.2.2
    (fun snap hs => habs snap (List.mem_cons_of_mem _ hs))⟩

/-- Witness for C2: service `ns/a` cached and persisted, then two empty
snapshots — one deleted publish in the first cycle, none in the second. -/
theorem C2_deleted_published_exactly_once_witness :
    countDeleted "ns/a" (runCycle ⟨[("ns/a", infoA)], [infoA]⟩ []).2 = 1 ∧
    ∀ l ∈ (runCycles (runCycle ⟨[("ns/a", infoA)], [infoA]⟩ []).1 [[]]).2,
      countDeleted "ns/a" l = 0 :=
  C2_deleted_published_exactly_once ⟨[("ns/a", infoA)], [infoA]⟩ "ns/a" [] [[]]
    (by decide) (by decide) (by decide)

/-- C3 counterexample: the claim says that on the first post-restart cycle
(empty cache) every service returned by `get_active_services` is published
with deleted=true. With one persisted service that is still present in the
snapshot, no deleted=true publish of it occurs: phase 1 of the same call
re-caches it before the deletion-reconciliation step runs. -/
theorem C3_restart_counterexample :
    ¬ (∀ s ∈ ([infoA] : List ServiceInfo),
        ∃ p ∈ (publish_new_services [] [rawA] [infoA]).published,
          p = { s with deleted := true }) := by
  decide

/-- C3 amended: on the first cycle after a restart (empty in-memory cache),
the deletion-reconciliation step publishes with deleted=true exactly those
services returned by `get_active_services` whose keys are absent from the
current snapshot; persisted services present in the snapshot are re-cached by
phase 1 of the same call and are not flagged deleted. -/
theorem C3_restart_deletions_characterized (active : List RawService)
    (persisted : List ServiceInfo) :
    (publish_new_services [] active persisted).published.filter (fun s => s.deleted) =
      (persisted.filter (fun s => decide (s.get_service_key ∉ active.map rawKey))).map
        (fun s => { s with deleted := true }) := by
  rw [published_filter_deleted, deletedPubs_char]

/-- C4: when the snapshot derives exactly the cached map (same keys, equal
values) and `get_active_services` returns exactly the cached services, no
service is published, the cache is unchanged, and the resolver receives
exactly the cached values; moreover, for any starting state, two consecutive
cycles on the same snapshot publish nothing on the second cycle. -/
theorem C4_identical_snapshot_publishes_nothing (cache : Cache)
    (active : List RawService) (persisted : List ServiceInfo)
    (h1 : ∀ raw ∈ active, dictGet cache (rawKey raw) = some (toServiceInfo raw))
    (h2 : ∀ p ∈ cache, p.1 ∈ active.map rawKey)
    (h3 : ∀ s ∈ persisted, dictGet cache s.get_service_key = some s)
    (hnd : (active.map rawKey).Nodup) :
    (publish_new_services cache active persisted).published = [] ∧
    (publish_new_services cache active persisted).cache = cache ∧
    (publish_new_services cache active persisted).resolver = cache.map Prod.snd ∧
    ∀ st : SysState, (runCycle (runCycle st active).1 active).2 = [] := by
  have hno := publish_new_services_noop cache active persisted h1 h2
    (fun s hs => by rw [h3 s hs]; exact Option.some_ne_none _)
  refine ⟨by rw [hno], by rw [hno], by rw [hno], fun st => ?_⟩
  have g1 : ∀ raw ∈ active,
      dictGet (runCycle st active).1.cache (rawKey raw) = some (toServiceInfo raw) := by
    rw [runCycle_cache]
    exact cacheAfterPhase2_get_active st.cache active hnd
  have g2 : ∀ p ∈ (runCycle st active).1.cache, p.1 ∈ active.map rawKey := by
    rw [runCycle_cache]
    exact fun p hp => mem_cacheAfterPhase2_key st.cache active p hp
  have hno2 := publish_new_services_noop (runCycle st active).1.cache active
    (runCycle st active).1.dal g1 g2 (runCycle_dal_cached st active)
  show (publish_new_services (runCycle st active).1.cache active
    (runCycle st active).1.dal).published = []
  rw [hno2]

/-- Witness for C4: a one-service snapshot identical to the cache and the
store. -/
theorem C4_identical_snapshot_publishes_nothing_witness :
    (publish_new_services [("ns/a", infoA)] [rawA] [infoA]).published = [] ∧
    (publish_new_services [("ns/a", infoA)] [rawA] [infoA]).cache = [("ns/a", infoA)] ∧
    (publish_new_services [("ns/a", infoA)] [rawA] [infoA]).resolver =
      ([("ns/a", infoA)] : Cache).map Prod.snd ∧
    ∀ st : SysState, (runCycle (runCycle st [rawA]).1 [rawA]).2 = [] :=
  C4_identical_snapshot_publishes_nothing [("ns/a", infoA)] [rawA] [infoA]
    (by decide) (by decide) (by decide) (by decide)

/-- C5: after a completed `__publish_new_services(active_services)` run, the
cache holds exactly the keys derived from the snapshot, and (given distinct
derived keys) each cached value is the ServiceInfo built from the
corresponding snapshot object. -/
theorem C5_cache_equals_snapshot (cache : Cache) (active : List RawService)
    (persisted : List ServiceInfo) (hnd : (active.map rawKey).Nodup) :
    (∀ raw ∈ active,
      dictGet (publish_new_services cache active persisted).cache (rawKey raw) =
        some (toServiceInfo raw)) ∧
    (∀ p ∈ (publish_new_services cache active persisted).cache,
      p.1 ∈ active.map rawKey) :=
  ⟨fun raw h => cacheAfterPhase2_get_active cache active hnd raw h,
   fun p hp => mem_cacheAfterPhase2_key cache active p hp⟩

/-- Witness for C5: starting from an unrelated cache, one cycle on a
one-service snapshot leaves exactly that service cached. -/
theorem C5_cache_equals_snapshot_witness :
    (∀ raw ∈ ([rawA] : List RawService),
      dictGet (publish_new_services [("other", infoA)] [rawA] []).cache (rawKey raw) =
        some (toServiceInfo raw)) ∧
    (∀ p ∈ (publish_new_services [("other", infoA)] [rawA] []).cache,
      p.1 ∈ ([rawA] : List RawService).map rawKey) :=
  C5_cache_equals_snapshot [("other", infoA)] [rawA] [] (by decide)

/-- C9: the discovery loop executes one iteration per scheduled fetch while
the active flag is true, whatever the outcomes; an iteration whose body
raises is absorbed by the `except` clause — the state passes through
unchanged and all remaining iterations still run. -/
theorem C9_loop_survives_errors (st : SysState)
    (fetches : List (Except String (List RawService))) (e : String)
    (rest : List (Except String (List RawService))) :
    (discover_services st fetches).2 = fetches.length ∧
    discover_services st (.error e :: rest) =
      ((discover_services st rest).1, (discover_services st rest).2 + 1) := by
  have hlen : ∀ (fs : List (Except String (List RawService))) (s : SysState),
      (discover_services s fs).2 = fs.length := by
    intro fs
    induction fs with
    | nil => intro s; rfl
    | cons f r ih => intro s; simp [discover_services, ih]
  exact ⟨hlen fetches st, rfl⟩

/-- C10: if every cached value has deleted=false, then after a
`__publish_new_services` run every cached value and every value handed to
`TopServiceResolver.store_cached_services` still has deleted=false — the
deleted=true objects built from `get_active_services` are published to the
store but never enter the cache or the resolver snapshot. -/
theorem C10_cache_resolver_never_deleted (cache : Cache) (active : List RawService)
    (persisted : List ServiceInfo) (h : ∀ p ∈ cache, p.2.deleted = false) :
    (∀ p ∈ (publish_new_services cache active persisted).cache, p.2.deleted = false) ∧
    (∀ v ∈ (publish_new_services cache active persisted).resolver, v.deleted = false) :=
  publish_new_services_deleted_false cache active persisted h

/-- Witness for C10: a cycle that both publishes a new service and emits a
deleted=true publish for a vanished persisted one keeps the cache and the
resolver free of deleted=true values. -/
theorem C10_cache_resolver_never_deleted_witness :
    (∀ p ∈ (publish_new_services [] [rawA] [⟨"b", "ns", "Deployment", false⟩]).cache,
      p.2.deleted = false) ∧
    (∀ v ∈ (publish_new_services [] [rawA] [⟨"b", "ns", "Deployment", false⟩]).resolver,
      v.deleted = false) :=
  C10_cache_resolver_never_deleted [] [rawA] [⟨"b", "ns", "Deployment", false⟩] (by decide)

/-- C6: for a pod event that passes the base, type, age and condition
filters, `should_fire` returns exactly the result of
`RateLimiter.mark_and_test` with scope `PodImagePullBackoffTrigger_<playbook_id>`
and entity `<namespace>:<name>`, where the name is the first owner
reference's name when the pod has a non-empty `ownerReferences` list and the
pod's own name otherwise. -/
theorem C6_admission_is_rate_limiter (cfg : TriggerConfig) (ev : TriggerEventM)
    (pid : String) (now : ℚ) (rl : RLState) (pod : Pod) (status : PodStatus)
    (md : PodMeta) (cs ics : List ContainerStatus) (nm ns : String)
    (hb : ev.baseMatch = true) (hk : ev.isK8s = true) (hp : ev.pod = some pod)
    (hs : pod.status = some status)
    (hage : ¬ ((cfg.fire_delay : ℚ) > runTimeSeconds now status.startTime))
    (hcs : status.containerStatuses = some cs)
    (hics : status.initContainerStatuses = some ics)
    (hback : hasBackoff (cs ++ ics) = .ok true)
    (hmd : pod.metadata = some md)
    (hnm : entityName md = some nm) (hns : md.«namespace» = some ns) :
    should_fire cfg ev pid now rl =
      .ok (mark_and_test rl ("PodImagePullBackoffTrigger_" ++ pid) (ns ++ ":" ++ nm)
        cfg.rate_limit now) ∧
    (∀ o os, md.ownerReferences = some (o :: os) → nm = o.name) ∧
    ((md.ownerReferences = none ∨ md.ownerReferences = some []) → md.name = some nm) := by
  refine ⟨?_, ?_, ?_⟩
  · simp [should_fire, hb, hk, hp, hs, hage, hcs, hics, hback, hmd, hnm, hns]
  · intro o os ho
    rw [entityName, ho] at hnm
    exact (Option.some_injective _ hnm).symm
  · intro h
    rcases h with h | h <;> rw [entityName, h] at hnm <;> exact hnm

/-- Witness for C6: a pod owned by `owner`, 1000 s old with the default
120 s fire delay, one container in ImagePullBackOff — the trigger returns
the rate limiter's verdict for scope `PodImagePullBackoffTrigger_pb` and
entity `ns:owner`. -/
theorem C6_admission_is_rate_limiter_witness :
    should_fire {} ⟨true, true, some podC6⟩ "pb" 1000 [] =
      .ok (mark_and_test [] ("PodImagePullBackoffTrigger_" ++ "pb") ("ns" ++ ":" ++ "owner")
        (14400 : Int) 1000) ∧
    (∀ o os, mdC6.ownerReferences = some (o :: os) → "owner" = o.name) ∧
    ((mdC6.ownerReferences = none ∨ mdC6.ownerReferences = some []) →
      mdC6.name = some "owner") :=
  C6_admission_is_rate_limiter {} ⟨true, true, some podC6⟩ "pb" 1000 [] podC6 stC6 mdC6
    [⟨some ⟨some ⟨some "ImagePullBackOff"⟩⟩⟩] [] "owner" "ns"
    rfl rfl rfl rfl (by norm_num [stC6, runTimeSeconds]) rfl rfl rfl rfl rfl rfl

/-- C7: whenever the pod's computed age (now minus status.startTime in
seconds, 0 when startTime is absent) is strictly below fire_delay,
`should_fire` returns false — in particular, with a positive fire_delay a
pod lacking startTime never fires (its witness instantiates exactly that). -/
theorem C7_age_filter_rejects (cfg : TriggerConfig) (ev : TriggerEventM)
    (pid : String) (now : ℚ) (rl : RLState) (pod : Pod) (status : PodStatus)
    (hb : ev.baseMatch = true) (hk : ev.isK8s = true) (hp : ev.pod = some pod)
    (hs : pod.status = some status)
    (hage : runTimeSeconds now status.startTime < (cfg.fire_delay : ℚ)) :
    should_fire cfg ev pid now rl = .ok (false, rl) := by
  simp [should_fire, hb, hk, hp, hs, hage]

/-- Witness for C7: a pod with no `status.startTime` (age treated as 0) and
the default fire_delay of 120 does not fire. -/
theorem C7_age_filter_rejects_witness :
    should_fire {} ⟨true, true, some podNoStart⟩ "pb" 1000 [] = .ok (false, []) :=
  C7_age_filter_rejects {} ⟨true, true, some podNoStart⟩ "pb" 1000 [] podNoStart stNoStart
    rfl rfl rfl rfl (by norm_num [stNoStart, runTimeSeconds])

/-- C8: past the earlier filters, `should_fire` returns false unless some
container status among containerStatuses ++ initContainerStatuses has a
non-null waiting state with reason ImagePullBackOff; a pod whose only
waiting reason is CrashLoopBackOff does not fire (its witness instantiates
exactly that). -/
theorem C8_condition_filter_rejects (cfg : TriggerConfig) (ev : TriggerEventM)
    (pid : String) (now : ℚ) (rl : RLState) (pod : Pod) (status : PodStatus)
    (cs ics : List ContainerStatus)
    (hb : ev.baseMatch = true) (hk : ev.isK8s = true) (hp : ev.pod = some pod)
    (hs : pod.status = some status)
    (hage : ¬ ((cfg.fire_delay : ℚ) > runTimeSeconds now status.startTime))
    (hcs : status.containerStatuses = some cs)
    (hics : status.initContainerStatuses = some ics)
    (hst : ∀ c ∈ cs ++ ics, c.state ≠ none)
    (hnb : ∀ c ∈ cs ++ ics, statusIPBO c = false) :
    should_fire cfg ev pid now rl = .ok (false, rl) := by
  have hbk : hasBackoff (cs ++ ics) = .ok false := hasBackoff_ok_false _ hst hnb
  simp [should_fire, hb, hk, hp, hs, hage, hcs, hics, hbk]

/-- Witness for C8: a 1000 s old pod whose only waiting reason is
CrashLoopBackOff does not fire. -/
theorem C8_condition_filter_rejects_witness :
    should_fire {} ⟨true, true, some podCrash⟩ "pb" 1000 [] = .ok (false, []) :=
  C8_condition_filter_rejects {} ⟨true, true, some podCrash⟩ "pb" 1000 [] podCrash
    ⟨some 0, some [⟨some ⟨some ⟨some "CrashLoopBackOff"⟩⟩⟩], some []⟩
    [⟨some ⟨some ⟨some "CrashLoopBackOff"⟩⟩⟩] []
    rfl rfl rfl rfl (by norm_num [runTimeSeconds]) rfl rfl (by decide) (by decide)
